import Mathlib

/-!
Verification of the ordering subsystem of the `lsd` directory-listing tool
(`src/sort.rs`).  The data model (`Meta`, `FileType`, the flag enums) lives in
modules outside the provided source and is modelled from the specification;
the comparators `with_dirs_first`, `by_size`, `by_name`, `by_date` and the
builder `create_sorter` are translated directly from `src/sort.rs`.
-/

namespace Lsd

/-- Modelled from the spec: `file_type` of a metadata entry is a closed
variant over File, Directory, and SymLink carrying whether the link target
resolves to a directory (`crate::meta::FileType`, not under `src/`). -/
inductive FileType where
  | file
  | directory
  | symLink (is_dir : Bool)
  deriving DecidableEq, Repr

/-- Modelled from the spec: a metadata entry (`crate::meta::Meta`, not under
`src/`) restricted to the attributes relevant to ordering: the display name
(lexicographic string order), the resolved size in bytes (`u64`, modelled as
`Nat`), the modification timestamp (a totally ordered instant, modelled as
`Int`), and the file type. -/
structure Meta where
  name : String
  size : Nat
  date : Int
  file_type : FileType
  deriving DecidableEq, Repr

/-- Modelled from the spec: `crate::flags::DirOrderFlag` — whether
directory-like entries are grouped first, last, or not at all. -/
inductive DirOrderFlag where
  | first
  | last
  | none
  deriving DecidableEq, Repr

/-- Modelled from the spec: `crate::flags::SortFlag` — the primary sort key. -/
inductive SortFlag where
  | name
  | size
  | time
  deriving DecidableEq, Repr

/-- Modelled from the spec: `crate::flags::SortOrder` — the direction tag
attached to a sub-comparator. -/
inductive SortOrder where
  | default
  | reverse
  deriving DecidableEq, Repr

/-- Modelled from the spec: the fields of `crate::flags::Flags` consumed by
the sorter. -/
structure Flags where
  directory_order : DirOrderFlag
  sort_by : SortFlag
  sort_order : SortOrder
  deriving DecidableEq, Repr

/-- Translation of `with_dirs_first` from `src/sort.rs`: the
directory-grouping comparator, matching on the pair of file types with
first-match semantics exactly as the Rust `match`. -/
def with_dirs_first (a b : Meta) : Ordering :=
  match a.file_type, b.file_type with
  | .directory, .directory => .eq
  | .directory, .symLink true => .eq
  | .symLink true, .directory => .eq
  | .directory, _ => .lt
  | _, .directory => .gt
  | .symLink true, _ => .lt
  | _, .symLink true => .gt
  | _, _ => .eq

/-- Translation of `by_size` from `src/sort.rs`:
`b.size.get_bytes().cmp(&a.size.get_bytes())`. -/
def by_size (a b : Meta) : Ordering :=
  compare b.size a.size

/-- Translation of `by_name` from `src/sort.rs`: `a.name.cmp(&b.name)`. -/
def by_name (a b : Meta) : Ordering :=
  compare a.name b.name

/-- Translation of `by_date` from `src/sort.rs`:
`b.date.cmp(&a.date).then(a.name.cmp(&b.name))`. -/
def by_date (a b : Meta) : Ordering :=
  (compare b.date a.date).then (compare a.name b.name)

/-- The ordered list of `(direction, sub-comparator)` pairs assembled by
`create_sorter` in `src/sort.rs` before the closure is built: the grouping
stage (when `directory_order` is not `None`) followed by the primary-key
stage tagged with `flags.sort_order`. -/
def sortersOf (flags : Flags) : List (SortOrder × (Meta → Meta → Ordering)) :=
  (match flags.directory_order with
   | .first => [(SortOrder.default, with_dirs_first)]
   | .last => [(SortOrder.reverse, with_dirs_first)]
   | .none => []) ++
  [(flags.sort_order,
    match flags.sort_by with
    | .name => by_name
    | .size => by_size
    | .time => by_date)]

/-- Translation of the closure returned by `create_sorter` in `src/sort.rs`:
walk the `(direction, sorter)` pairs in order; on `Equal` continue, on the
first non-`Equal` result return it, reversed when the pair's direction is
`Reverse`; if the list is exhausted return `Equal`. -/
def applySorters (sorters : List (SortOrder × (Meta → Meta → Ordering)))
    (a b : Meta) : Ordering :=
  match sorters with
  | [] => .eq
  | (direction, sorter) :: rest =>
    match sorter a b with
    | .eq => applySorters rest a b
    | ordering =>
      match direction with
      | .reverse => ordering.swap
      | .default => ordering

/-- Translation of `create_sorter` from `src/sort.rs`: the comparator built
from a flag configuration. -/
def create_sorter (flags : Flags) : Meta → Meta → Ordering :=
  fun a b => applySorters (sortersOf flags) a b

/-- Spec-side notion: an entry is directory-like when its file type is
`Directory` or `SymLink { is_dir: true }`. -/
def dirLike (ft : FileType) : Bool :=
  match ft with
  | .directory => true
  | .symLink true => true
  | _ => false

lemma with_dirs_first_lt_of_split (a b : Meta)
    (ha : dirLike a.file_type = true) (hb : dirLike b.file_type = false) :
    with_dirs_first a b = Ordering.lt := by
  obtain ⟨na, sa, da, ta⟩ := a
  obtain ⟨nb, sb, db, tb⟩ := b
  rcases ta with _ | _ | (_ | _) <;> rcases tb with _ | _ | (_ | _) <;>
    simp_all [dirLike, with_dirs_first]

lemma applySorters_append_eq (l1 rest : List (SortOrder × (Meta → Meta → Ordering)))
    (a b : Meta) (hl1 : ∀ p ∈ l1, p.2 a b = Ordering.eq) :
    applySorters (l1 ++ rest) a b = applySorters rest a b := by
  induction l1 with
  | nil => rfl
  | cons p t ih =>
    obtain ⟨d, s⟩ := p
    have h1 : s a b = Ordering.eq := hl1 (d, s) (List.mem_cons_self _ _)
    simp only [List.cons_append, applySorters, h1]
    exact ih (fun q hq => hl1 q (List.mem_cons_of_mem _ hq))

lemma applySorters_cons_default (s : Meta → Meta → Ordering)
    (l2 : List (SortOrder × (Meta → Meta → Ordering))) (a b : Meta)
    (hs : s a b ≠ Ordering.eq) :
    applySorters ((SortOrder.default, s) :: l2) a b = s a b := by
  rcases h : s a b with _ | _ | _ <;> simp_all [applySorters]

lemma applySorters_cons_reverse (s : Meta → Meta → Ordering)
    (l2 : List (SortOrder × (Meta → Meta → Ordering))) (a b : Meta)
    (hs : s a b ≠ Ordering.eq) :
    applySorters ((SortOrder.reverse, s) :: l2) a b = (s a b).swap := by
  rcases h : s a b with _ | _ | _ <;> simp_all [applySorters]

lemma applySorters_single_swap (s : Meta → Meta → Ordering) (a b : Meta) :
    applySorters [(SortOrder.reverse, s)] a b =
      (applySorters [(SortOrder.default, s)] a b).swap := by
  rcases h : s a b with _ | _ | _ <;> simp [applySorters, h, Ordering.swap]

lemma applySorters_ne (l : List (SortOrder × (Meta → Meta → Ordering))) (a b : Meta)
    (h : ∃ p ∈ l, p.2 a b ≠ Ordering.eq) :
    applySorters l a b ≠ Ordering.eq := by
  induction l with
  | nil => simp at h
  | cons p rest ih =>
    obtain ⟨d, s⟩ := p
    rcases hs : s a b with _ | _ | _
    · cases d <;> simp [applySorters, hs, Ordering.swap]
    · simp only [applySorters, hs]
      apply ih
      rcases h with ⟨q, hq, hqne⟩
      rcases List.mem_cons.mp hq with rfl | hq2
      · exact absurd hs hqne
      · exact ⟨q, hq2, hqne⟩
    · cases d <;> simp [applySorters, hs, Ordering.swap]

/-- C1: the claim states that any two directory-like entries compare `Equal`
at the grouping level, in particular two `SymLink { is_dir: true }` entries.
The code violates this: the arm `(SymLink { is_dir: true }, _) => Less` of
`with_dirs_first` fires for a pair of symlink-directories, so such a pair
compares `Less` in both argument orders, and under `directory_order = First`
the built comparator returns `Less` both ways, ignoring the primary name key
(which would order them `Greater` here). -/
theorem with_dirs_first_symlink_pair_bug :
    dirLike (FileType.symLink true) = true ∧
    with_dirs_first ⟨"zzz", 0, 0, FileType.symLink true⟩
      ⟨"aaa", 0, 0, FileType.symLink true⟩ = Ordering.lt ∧
    with_dirs_first ⟨"aaa", 0, 0, FileType.symLink true⟩
      ⟨"zzz", 0, 0, FileType.symLink true⟩ = Ordering.lt ∧
    create_sorter ⟨DirOrderFlag.first, SortFlag.name, SortOrder.default⟩
      ⟨"zzz", 0, 0, FileType.symLink true⟩
      ⟨"aaa", 0, 0, FileType.symLink true⟩ = Ordering.lt ∧
    create_sorter ⟨DirOrderFlag.none, SortFlag.name, SortOrder.default⟩
      ⟨"zzz", 0, 0, FileType.symLink true⟩
      ⟨"aaa", 0, 0, FileType.symLink true⟩ = Ordering.gt := by
  decide

/-- C2: the claim states antisymmetry of the built comparator for every
configuration. The code violates it: with `directory_order = First` and two
symlink-directory entries, both `compare(a,b)` and `compare(b,a)` are `Less`
(the grouping arm `(SymLink { is_dir: true }, _) => Less` fires in both
orders), while antisymmetry demands `compare(b,a) = Greater`. -/
theorem create_sorter_antisymmetry_violation :
    create_sorter ⟨DirOrderFlag.first, SortFlag.name, SortOrder.default⟩
      ⟨"aaa", 0, 0, FileType.symLink true⟩
      ⟨"zzz", 0, 0, FileType.symLink true⟩ = Ordering.lt ∧
    create_sorter ⟨DirOrderFlag.first, SortFlag.name, SortOrder.default⟩
      ⟨"zzz", 0, 0, FileType.symLink true⟩
      ⟨"aaa", 0, 0, FileType.symLink true⟩ = Ordering.lt := by
  decide

/-- C3: the built comparator evaluates its `(direction, sub-comparator)`
pairs left to right: `create_sorter` is the evaluation of `sortersOf`; a run
of all-`Equal` pairs yields `Equal`; and the first pair whose sub-comparator
is non-`Equal` decides the result, passed through under direction `Default`
and reversed under `Reverse`. -/
theorem create_sorter_evaluation (flags : Flags) (a b : Meta) :
    create_sorter flags a b = applySorters (sortersOf flags) a b ∧
    (∀ l : List (SortOrder × (Meta → Meta → Ordering)),
      (∀ p ∈ l, p.2 a b = Ordering.eq) → applySorters l a b = Ordering.eq) ∧
    (∀ (l1 : List (SortOrder × (Meta → Meta → Ordering)))
       (s : Meta → Meta → Ordering)
       (l2 : List (SortOrder × (Meta → Meta → Ordering))),
      (∀ p ∈ l1, p.2 a b = Ordering.eq) → s a b ≠ Ordering.eq →
      applySorters (l1 ++ (SortOrder.default, s) :: l2) a b = s a b ∧
      applySorters (l1 ++ (SortOrder.reverse, s) :: l2) a b = (s a b).swap) := by
  refine ⟨rfl, ?_, ?_⟩
  · intro l hl
    have h := applySorters_append_eq l [] a b hl
    rw [List.append_nil] at h
    exact h
  · intro l1 s l2 h1 hs
    constructor
    · rw [applySorters_append_eq l1 _ a b h1]
      exact applySorters_cons_default s l2 a b hs
    · rw [applySorters_append_eq l1 _ a b h1]
      exact applySorters_cons_reverse s l2 a b hs

/-- Witness for C3 at a concrete configuration and concrete entries. -/
theorem create_sorter_evaluation_witness :
    applySorters [(SortOrder.default, by_name)]
      ⟨"aaa", 1, 2, FileType.file⟩ ⟨"bbb", 3, 4, FileType.file⟩ =
      by_name ⟨"aaa", 1, 2, FileType.file⟩ ⟨"bbb", 3, 4, FileType.file⟩ ∧
    applySorters [(SortOrder.reverse, by_name)]
      ⟨"aaa", 1, 2, FileType.file⟩ ⟨"bbb", 3, 4, FileType.file⟩ =
      (by_name ⟨"aaa", 1, 2, FileType.file⟩ ⟨"bbb", 3, 4, FileType.file⟩).swap :=
  (create_sorter_evaluation ⟨DirOrderFlag.none, SortFlag.name, SortOrder.default⟩
      ⟨"aaa", 1, 2, FileType.file⟩ ⟨"bbb", 3, 4, FileType.file⟩).2.2
    [] by_name [] (by simp) (by decide)

/-- C4: for a directory-like entry `a` and a non-directory-like entry `b`,
with `directory_order = First` the built comparator returns `Less`, for
every sort key and direction. -/
theorem create_sorter_dirs_first_lt (k : SortFlag) (d : SortOrder) (a b : Meta)
    (ha : dirLike a.file_type = true) (hb : dirLike b.file_type = false) :
    create_sorter ⟨DirOrderFlag.first, k, d⟩ a b = Ordering.lt := by
  have h := with_dirs_first_lt_of_split a b ha hb
  have hne : with_dirs_first a b ≠ Ordering.eq := by simp [h]
  cases k <;> cases d <;>
    exact (applySorters_cons_default with_dirs_first _ a b hne).trans h

/-- Witness for C4: a directory sorts before a plain file under `First`. -/
theorem create_sorter_dirs_first_lt_witness :
    dirLike (FileType.directory) = true ∧
    dirLike (FileType.file) = false ∧
    create_sorter ⟨DirOrderFlag.first, SortFlag.name, SortOrder.default⟩
      ⟨"zzz", 0, 0, FileType.directory⟩ ⟨"aaa", 0, 0, FileType.file⟩ =
      Ordering.lt :=
  ⟨rfl, rfl,
   create_sorter_dirs_first_lt SortFlag.name SortOrder.default
     ⟨"zzz", 0, 0, FileType.directory⟩ ⟨"aaa", 0, 0, FileType.file⟩ rfl rfl⟩

/-- C5: for a directory-like entry `a` and a non-directory-like entry `b`,
with `directory_order = Last` the built comparator returns `Greater`, for
every sort key and direction. -/
theorem create_sorter_dirs_last_gt (k : SortFlag) (d : SortOrder) (a b : Meta)
    (ha : dirLike a.file_type = true) (hb : dirLike b.file_type = false) :
    create_sorter ⟨DirOrderFlag.last, k, d⟩ a b = Ordering.gt := by
  have h := with_dirs_first_lt_of_split a b ha hb
  have hne : with_dirs_first a b ≠ Ordering.eq := by simp [h]
  cases k <;> cases d <;>
    exact (applySorters_cons_reverse with_dirs_first _ a b hne).trans
      (by rw [h]; rfl)

/-- Witness for C5: a symlink-directory sorts after a plain file under
`Last`. -/
theorem create_sorter_dirs_last_gt_witness :
    dirLike (FileType.symLink true) = true ∧
    dirLike (FileType.symLink false) = false ∧
    create_sorter ⟨DirOrderFlag.last, SortFlag.size, SortOrder.reverse⟩
      ⟨"aaa", 0, 0, FileType.symLink true⟩
      ⟨"zzz", 9, 0, FileType.symLink false⟩ = Ordering.gt :=
  ⟨rfl, rfl,
   create_sorter_dirs_last_gt SortFlag.size SortOrder.reverse
     ⟨"aaa", 0, 0, FileType.symLink true⟩
     ⟨"zzz", 9, 0, FileType.symLink false⟩ rfl rfl⟩

/-- C6: with `directory_order = None` and any sort key, the comparator built
with `sort_direction = Reverse` is exactly the reversal of the comparator
built with `sort_direction = Default`. -/
theorem create_sorter_reverse_symmetry (k : SortFlag) (a b : Meta) :
    create_sorter ⟨DirOrderFlag.none, k, SortOrder.reverse⟩ a b =
      (create_sorter ⟨DirOrderFlag.none, k, SortOrder.default⟩ a b).swap := by
  cases k <;> exact applySorters_single_swap _ a b

/-- C7: under `sort_key = Time`, for entries with equal timestamps and
distinct names the time comparator falls back to name comparison, so the
built comparator never returns `Equal`, whatever the grouping flag and
direction. -/
theorem create_sorter_time_tiebreak (g : DirOrderFlag) (d : SortOrder)
    (a b : Meta) (hd : a.date = b.date) (hn : a.name ≠ b.name) :
    create_sorter ⟨g, SortFlag.time, d⟩ a b ≠ Ordering.eq := by
  have h1 : compare b.date a.date = Ordering.eq := by
    rw [hd]
    exact Batteries.OrientedCmp.cmp_refl
  have hbd : by_date a b = compare a.name b.name := by
    unfold by_date
    rw [h1]
    rfl
  have hne : by_date a b ≠ Ordering.eq := by
    rw [hbd]
    exact fun hc => hn (compare_eq_iff_eq.mp hc)
  show applySorters (sortersOf ⟨g, SortFlag.time, d⟩) a b ≠ Ordering.eq
  apply applySorters_ne
  cases g
  · exact ⟨(d, by_date), by simp [sortersOf], hne⟩
  · exact ⟨(d, by_date), by simp [sortersOf], hne⟩
  · exact ⟨(d, by_date), by simp [sortersOf], hne⟩

/-- Witness for C7: equal timestamps, distinct names, grouping `First`,
direction `Reverse`. -/
theorem create_sorter_time_tiebreak_witness :
    (⟨"aaa", 1, 5, FileType.directory⟩ : Meta).date =
      (⟨"bbb", 2, 5, FileType.file⟩ : Meta).date ∧
    (⟨"aaa", 1, 5, FileType.directory⟩ : Meta).name ≠
      (⟨"bbb", 2, 5, FileType.file⟩ : Meta).name ∧
    create_sorter ⟨DirOrderFlag.first, SortFlag.time, SortOrder.reverse⟩
      ⟨"aaa", 1, 5, FileType.directory⟩ ⟨"bbb", 2, 5, FileType.file⟩ ≠
      Ordering.eq :=
  ⟨rfl, by decide,
   create_sorter_time_tiebreak DirOrderFlag.first SortOrder.reverse
     ⟨"aaa", 1, 5, FileType.directory⟩ ⟨"bbb", 2, 5, FileType.file⟩
     rfl (by decide)⟩

/-- C8: under `sort_key = Size` with `directory_order = None`, an entry with
strictly larger size compares `Less` under direction `Default` and `Greater`
under `Reverse`. -/
theorem create_sorter_size_larger_first (a b : Meta) (h : b.size < a.size) :
    create_sorter ⟨DirOrderFlag.none, SortFlag.size, SortOrder.default⟩ a b =
      Ordering.lt ∧
    create_sorter ⟨DirOrderFlag.none, SortFlag.size, SortOrder.reverse⟩ a b =
      Ordering.gt := by
  have hs : by_size a b = Ordering.lt := by
    unfold by_size
    exact compare_lt_iff_lt.mpr h
  have hne : by_size a b ≠ Ordering.eq := by simp [hs]
  constructor
  · exact (applySorters_cons_default by_size [] a b hne).trans hs
  · exact (applySorters_cons_reverse by_size [] a b hne).trans (by rw [hs]; rfl)

/-- Witness for C8: a 10-byte entry against a 3-byte entry. -/
theorem create_sorter_size_larger_first_witness :
    (⟨"big", 10, 0, FileType.file⟩ : Meta).size >
      (⟨"small", 3, 0, FileType.file⟩ : Meta).size ∧
    create_sorter ⟨DirOrderFlag.none, SortFlag.size, SortOrder.default⟩
      ⟨"big", 10, 0, FileType.file⟩ ⟨"small", 3, 0, FileType.file⟩ =
      Ordering.lt ∧
    create_sorter ⟨DirOrderFlag.none, SortFlag.size, SortOrder.reverse⟩
      ⟨"big", 10, 0, FileType.file⟩ ⟨"small", 3, 0, FileType.file⟩ =
      Ordering.gt :=
  ⟨by decide,
   (create_sorter_size_larger_first
     ⟨"big", 10, 0, FileType.file⟩ ⟨"small", 3, 0, FileType.file⟩ (by decide)).1,
   (create_sorter_size_larger_first
     ⟨"big", 10, 0, FileType.file⟩ ⟨"small", 3, 0, FileType.file⟩ (by decide)).2⟩

/-- C9: under `sort_key = Time` and `sort_direction = Reverse`, for entries
with equal timestamps and distinct names the `Reverse` direction applies to
the combined date-then-name sub-comparator result, so the built comparator
returns the reversal of the lexicographic name order; this holds with
`directory_order = None`, and with any grouping flag whenever the grouping
stage leaves the pair `Equal`. -/
theorem create_sorter_time_reverse_name_desc (a b : Meta)
    (hd : a.date = b.date) (hn : a.name ≠ b.name) :
    create_sorter ⟨DirOrderFlag.none, SortFlag.time, SortOrder.reverse⟩ a b =
      (compare a.name b.name).swap ∧
    ∀ g : DirOrderFlag, with_dirs_first a b = Ordering.eq →
      create_sorter ⟨g, SortFlag.time, SortOrder.reverse⟩ a b =
        (compare a.name b.name).swap := by
  have h1 : compare b.date a.date = Ordering.eq := by
    rw [hd]
    exact Batteries.OrientedCmp.cmp_refl
  have hbd : by_date a b = compare a.name b.name := by
    unfold by_date
    rw [h1]
    rfl
  have hne : by_date a b ≠ Ordering.eq := by
    rw [hbd]
    exact fun hc => hn (compare_eq_iff_eq.mp hc)
  have single : applySorters [(SortOrder.reverse, by_date)] a b =
      (compare a.name b.name).swap := by
    rw [applySorters_cons_reverse by_date [] a b hne, hbd]
  refine ⟨single, ?_⟩
  intro g hg
  cases g
  · refine (applySorters_append_eq [(SortOrder.default, with_dirs_first)]
      [(SortOrder.reverse, by_date)] a b ?_).trans single
    intro p hp
    simp at hp
    subst hp
    exact hg
  · refine (applySorters_append_eq [(SortOrder.reverse, with_dirs_first)]
      [(SortOrder.reverse, by_date)] a b ?_).trans single
    intro p hp
    simp at hp
    subst hp
    exact hg
  · exact single

/-- Witness for C9: equal timestamps, names `"bbb"` and `"aaa"`, checked
both with no grouping and with grouping `First` on two plain files. -/
theorem create_sorter_time_reverse_name_desc_witness :
    (⟨"bbb", 0, 7, FileType.file⟩ : Meta).date =
      (⟨"aaa", 0, 7, FileType.file⟩ : Meta).date ∧
    (⟨"bbb", 0, 7, FileType.file⟩ : Meta).name ≠
      (⟨"aaa", 0, 7, FileType.file⟩ : Meta).name ∧
    create_sorter ⟨DirOrderFlag.none, SortFlag.time, SortOrder.reverse⟩
      ⟨"bbb", 0, 7, FileType.file⟩ ⟨"aaa", 0, 7, FileType.file⟩ =
      (compare (⟨"bbb", 0, 7, FileType.file⟩ : Meta).name
        (⟨"aaa", 0, 7, FileType.file⟩ : Meta).name).swap ∧
    create_sorter ⟨DirOrderFlag.first, SortFlag.time, SortOrder.reverse⟩
      ⟨"bbb", 0, 7, FileType.file⟩ ⟨"aaa", 0, 7, FileType.file⟩ =
      (compare (⟨"bbb", 0, 7, FileType.file⟩ : Meta).name
        (⟨"aaa", 0, 7, FileType.file⟩ : Meta).name).swap :=
  ⟨rfl, by decide,
   (create_sorter_time_reverse_name_desc
     ⟨"bbb", 0, 7, FileType.file⟩ ⟨"aaa", 0, 7, FileType.file⟩
     rfl (by decide)).1,
   (create_sorter_time_reverse_name_desc
     ⟨"bbb", 0, 7, FileType.file⟩ ⟨"aaa", 0, 7, FileType.file⟩
     rfl (by decide)).2 DirOrderFlag.first rfl⟩

/-- C10: with `directory_order = None` and `sort_key = Name`, the built
comparator reads only the two entries' names: replacing either entry by one
with the same name but arbitrary other fields leaves the result unchanged,
and entries with equal names compare `Equal`. -/
theorem create_sorter_name_only (d : SortOrder) (a b c e : Meta)
    (hac : a.name = c.name) (hbe : b.name = e.name) :
    create_sorter ⟨DirOrderFlag.none, SortFlag.name, d⟩ a b =
      create_sorter ⟨DirOrderFlag.none, SortFlag.name, d⟩ c e ∧
    (a.name = b.name →
      create_sorter ⟨DirOrderFlag.none, SortFlag.name, d⟩ a b = Ordering.eq) := by
  have hbn : by_name a b = by_name c e := by
    unfold by_name
    rw [hac, hbe]
  constructor
  · show applySorters [(d, by_name)] a b = applySorters [(d, by_name)] c e
    rcases h : by_name c e with _ | _ | _ <;> simp [applySorters, hbn, h]
  · intro hab
    have heq : by_name a b = Ordering.eq := by
      unfold by_name
      rw [hab]
      exact Batteries.OrientedCmp.cmp_refl
    show applySorters [(d, by_name)] a b = Ordering.eq
    simp [applySorters, heq]

/-- Witness for C10: same names, different sizes, dates, and file types give
the same result; equal names give `Equal`. -/
theorem create_sorter_name_only_witness :
    create_sorter ⟨DirOrderFlag.none, SortFlag.name, SortOrder.default⟩
      ⟨"nnn", 1, 2, FileType.file⟩ ⟨"mmm", 3, 4, FileType.symLink false⟩ =
    create_sorter ⟨DirOrderFlag.none, SortFlag.name, SortOrder.default⟩
      ⟨"nnn", 9, 8, FileType.directory⟩ ⟨"mmm", 7, 6, FileType.file⟩ ∧
    create_sorter ⟨DirOrderFlag.none, SortFlag.name, SortOrder.default⟩
      ⟨"nnn", 1, 2, FileType.file⟩ ⟨"nnn", 9, 8, FileType.directory⟩ =
      Ordering.eq :=
  ⟨(create_sorter_name_only SortOrder.default
      ⟨"nnn", 1, 2, FileType.file⟩ ⟨"mmm", 3, 4, FileType.symLink false⟩
      ⟨"nnn", 9, 8, FileType.directory⟩ ⟨"mmm", 7, 6, FileType.file⟩
      rfl rfl).1,
   (create_sorter_name_only SortOrder.default
      ⟨"nnn", 1, 2, FileType.file⟩ ⟨"nnn", 9, 8, FileType.directory⟩
      ⟨"nnn", 1, 2, FileType.file⟩ ⟨"nnn", 9, 8, FileType.directory⟩
      rfl rfl).2 rfl⟩

end Lsd
